import Mathlib

/-!
# kubelogin `get-token` command: options, argument validation and home-directory expansion

A shallow embedding of `pkg/cmd/get_token.go`.

* Go strings are modelled by `String`; the two prefix operations the code uses
  (`strings.HasPrefix`, `strings.TrimPrefix`) are defined on the underlying
  character lists exactly as the Go standard library defines them on bytes.
  The only prefixes the code ever passes are ASCII, for which the two views agree.
* A Go `error` value is a `GoError`; a nil error is `none`.
* A Go function returning `(T, error)` returns a pair `T × Option GoError`.
* A method with a pointer receiver that assigns to its receiver returns the
  updated receiver together with its result.
* Methods and interfaces that `get_token.go` calls but does not define are the
  fields of `Collaborators`; their types are type parameters.
-/

namespace Kubelogin

/-! ## Go errors -/

/-- A Go error value: either an `errors.errorString` (made by `errors.New`) or a
`fmt.wrapError` (made by `fmt.Errorf` with a `%w` verb), which stores its
formatted message and the wrapped error. -/
inductive GoError where
  | errorString (s : String)
  | wrapError (msg : String) (err : GoError)
  deriving DecidableEq, Repr

namespace GoError

/-- The method `Error()`: the message of the error. -/
def Error : GoError → String
  | errorString s => s
  | wrapError msg _ => msg

/-- The method `Unwrap()` as seen by `errors.Unwrap`: the wrapped error, if any. -/
def Unwrap : GoError → Option GoError
  | errorString _ => none
  | wrapError _ err => some err

end GoError

/-- The call `errors.New(text)`. -/
def errorsNew (text : String) : GoError := GoError.errorString text

/-- The call `fmt.Errorf(pre + "%w", err)` for a format string made of a literal
text `pre` followed by one `%w` verb: the message is `pre` followed by
`err.Error()` and the result unwraps to `err`. -/
def Errorf (pre : String) (err : GoError) : GoError :=
  GoError.wrapError (pre ++ err.Error) err

/-! ## Go strings -/

/-- The function `strings.HasPrefix(s, prefix)`:
`len(s) >= len(prefix) && s[:len(prefix)] == prefix`. -/
def HasPrefix (s pre : String) : Bool :=
  decide (s.data.length ≥ pre.data.length) && (s.data.take pre.data.length == pre.data)

/-- The function `strings.TrimPrefix(s, prefix)`:
`if HasPrefix(s, prefix) { return s[len(prefix):] }; return s`. -/
def TrimPrefix (s pre : String) : String :=
  if HasPrefix s pre then ⟨s.data.drop pre.data.length⟩ else s

/-! ## The operating system -/

/-- The platforms Go distinguishes for `os.PathSeparator`. -/
inductive GOOS where
  | unix
  | windows
  deriving DecidableEq, Repr

/-- The constant `os.PathSeparator`: `'/'` except on Windows, where it is `'\\'`. -/
def PathSeparator : GOOS → Char
  | GOOS.unix => '/'
  | GOOS.windows => '\\'

/-- What the process sees of its operating system: the platform, and what
`os.UserHomeDir()` returns (a directory and a nil error, or a non-nil error). -/
structure OS where
  goos : GOOS
  UserHomeDir : String × Option GoError

/-- The string `"~" + string(os.PathSeparator)`. -/
def tildeSep (os : OS) : String := "~" ++ String.singleton (PathSeparator os.goos)

/-! ## `expandHomedir` -/

/-- The function `expandHomedir(s string) (string, error)`. -/
def expandHomedir (os : OS) (s : String) : String × Option GoError :=
  if !HasPrefix s (tildeSep os) then
    (s, none)
  else
    match os.UserHomeDir with
    | (_, some err) => ("", some (Errorf "could not expand homedir: " err))
    | (userHomeDir, none) => (userHomeDir ++ TrimPrefix s "~", none)

/-! ## Data model of the command -/

/-- The struct `oidc.Provider`, with the fields the command fills in. -/
structure Provider where
  IssuerURL : String
  ClientID : String
  ClientSecret : String
  ExtraScopes : List String
  deriving DecidableEq, Repr

/-- The struct `credentialplugin.Input`, with the fields the command fills in.
`G` is the type `authentication.GrantOptionSet` and `C` the type
`tlsclientconfig.Config`. -/
structure Input (G C : Type) where
  Provider : Provider
  TokenCacheDir : String
  GrantOptionSet : G
  TLSClientConfig : C
  deriving DecidableEq, Repr

/-- The struct `getTokenOptions`. `T` is the type `tlsOptions` and `A` the type
`authenticationOptions`. -/
structure getTokenOptions (T A : Type) where
  IssuerURL : String
  ClientID : String
  ClientSecret : String
  ExtraScopes : List String
  TokenCacheDir : String
  tlsOptions : T
  authenticationOptions : A
  deriving DecidableEq, Repr

/-- The methods and the interface that `get_token.go` calls and does not define.

* `authenticationOptions_expandHomedir` is `(*authenticationOptions).expandHomedir`
  and `tlsOptions_expandHomedir` is `(*tlsOptions).expandHomedir`: each returns
  its receiver as the call leaves it, and an error or nil;
* `grantOptionSet` is `(*authenticationOptions).grantOptionSet`;
* `tlsClientConfig` is `(*tlsOptions).tlsClientConfig`;
* `Do` is the method of `credentialplugin.Interface` held in the field
  `GetToken.GetToken`; `Ctx` is the type `context.Context`. -/
structure Collaborators (T A G C Ctx : Type) where
  authenticationOptions_expandHomedir : A → A × Option GoError
  grantOptionSet : A → G × Option GoError
  tlsOptions_expandHomedir : T → T × Option GoError
  tlsClientConfig : T → C
  Do : Ctx → Input G C → Option GoError

/-- What the closures read of a `*cobra.Command`: the result of `CommandPath()`
and of `Context()`. -/
structure Command (Ctx : Type) where
  CommandPath : String
  Context : Ctx

/-- What running a closure of the command leaves behind: the error it returns
(nil is `none`) and the calls of `Do` it made, in order, each with its arguments. -/
structure Outcome (G C Ctx : Type) where
  err : Option GoError
  calls : List (Ctx × Input G C)

section Methods

variable {T A G C Ctx : Type}

/-- The method `(o *getTokenOptions) expandHomedir() error`: the options as the
call leaves them, and the error it returns. -/
def getTokenOptions.expandHomedir (os : OS) (k : Collaborators T A G C Ctx)
    (o : getTokenOptions T A) : getTokenOptions T A × Option GoError :=
  match Kubelogin.expandHomedir os o.TokenCacheDir with
  | (dir, some err) =>
    ({ o with TokenCacheDir := dir }, some (Errorf "invalid --token-cache-dir: " err))
  | (dir, none) =>
    let o := { o with TokenCacheDir := dir }
    match k.authenticationOptions_expandHomedir o.authenticationOptions with
    | (a, some err) => ({ o with authenticationOptions := a }, some err)
    | (a, none) =>
      let o := { o with authenticationOptions := a }
      match k.tlsOptions_expandHomedir o.tlsOptions with
      | (t, some err) => ({ o with tlsOptions := t }, some err)
      | (t, none) => ({ o with tlsOptions := t }, none)

/-- The function `cobra.NoArgs(cmd, args)` of the cobra library:
`if len(args) > 0 { return fmt.Errorf("unknown command %q for %q", args[0], cmd.CommandPath()) }`
and nil otherwise. `quote` is the rendering of the `%q` verb. -/
def NoArgs (quote : String → String) (c : Command Ctx) (args : List String) :
    Option GoError :=
  match args with
  | [] => none
  | a :: _ => some (errorsNew ("unknown command " ++ quote a ++ " for " ++ quote c.CommandPath))

/-- The closure `Args` of the command built by `(*GetToken).New`; `o` is the
captured options variable as flag parsing left it. -/
def Args (quote : String → String) (o : getTokenOptions T A) (c : Command Ctx)
    (args : List String) : Option GoError :=
  match NoArgs quote c args with
  | some err => some err
  | none =>
    if o.IssuerURL == "" then
      some (errorsNew "--oidc-issuer-url is missing")
    else if o.ClientID == "" then
      some (errorsNew "--oidc-client-id is missing")
    else
      none

/-- The closure `RunE` of the command built by `(*GetToken).New`; `o` is the
captured options variable, and the second argument of the closure is ignored. -/
def RunE (os : OS) (k : Collaborators T A G C Ctx) (o : getTokenOptions T A)
    (c : Command Ctx) (_args : List String) : Outcome G C Ctx :=
  match getTokenOptions.expandHomedir os k o with
  | (_, some err) => ⟨some err, []⟩
  | (o, none) =>
    match k.grantOptionSet o.authenticationOptions with
    | (_, some err) => ⟨some (Errorf "get-token: " err), []⟩
    | (grantOptionSet, none) =>
      let inp : Input G C :=
        { Provider :=
            { IssuerURL := o.IssuerURL
              ClientID := o.ClientID
              ClientSecret := o.ClientSecret
              ExtraScopes := o.ExtraScopes }
          TokenCacheDir := o.TokenCacheDir
          GrantOptionSet := grantOptionSet
          TLSClientConfig := k.tlsClientConfig o.tlsOptions }
      match k.Do c.Context inp with
      | some err => ⟨some (Errorf "get-token: " err), [(c.Context, inp)]⟩
      | none => ⟨none, [(c.Context, inp)]⟩

/-- The steps of cobra's `(*Command).execute` that follow flag parsing:
`ValidateArgs` calls `Args`, and returns its error if it is not nil; only
otherwise is `RunE` called. -/
def execute (quote : String → String) (os : OS) (k : Collaborators T A G C Ctx)
    (o : getTokenOptions T A) (c : Command Ctx) (args : List String) : Outcome G C Ctx :=
  match Args quote o c args with
  | some err => ⟨some err, []⟩
  | none => RunE os k o c args

end Methods

/-! ## A concrete instance, after the test `TestCmd_Run/get-token` -/

/-- A Unix process whose home directory is `/home/alice`. -/
def aliceOS : OS := ⟨GOOS.unix, ("/home/alice", none)⟩

/-- A Unix process whose home directory cannot be determined. -/
def homelessOS : OS := ⟨GOOS.unix, ("", some (errorsNew "$HOME is not defined"))⟩

/-- A Unix process started with `HOME=~`. -/
def tildeOS : OS := ⟨GOOS.unix, ("~", none)⟩

/-- Collaborators over simple types: the authentication options are a
local-server certificate path, the TLS options are a CA certificate path, both
expanded with `expandHomedir`; the grant option set and the TLS config are those
paths; `Do` fails exactly when the issuer URL is `"fail"`. -/
def sampleCollaborators (os : OS) : Collaborators String String String String Nat where
  authenticationOptions_expandHomedir := fun a =>
    match expandHomedir os a with
    | (a, some err) => (a, some (Errorf "invalid --local-server-cert: " err))
    | (a, none) => (a, none)
  grantOptionSet := fun a =>
    if a == "ambiguous" then ("", some (errorsNew "ambiguous grant options")) else (a, none)
  tlsOptions_expandHomedir := fun t =>
    match expandHomedir os t with
    | (t, some err) => (t, some (Errorf "invalid --certificate-authority: " err))
    | (t, none) => (t, none)
  tlsClientConfig := fun t => t
  Do := fun _ inp =>
    if inp.Provider.IssuerURL == "fail" then some (errorsNew "authentication error") else none

/-- The options of the test case `HomedirExpansion`. -/
def sampleOptions : getTokenOptions String String where
  IssuerURL := "https://issuer.example.com"
  ClientID := "YOUR_CLIENT_ID"
  ClientSecret := ""
  ExtraScopes := ["email", "profile"]
  TokenCacheDir := "~/.kube/oidc-cache"
  tlsOptions := "~/.kube/ca.crt"
  authenticationOptions := "~/.kube/oidc-server.crt"

/-- The command as the test runs it, with context `7`. -/
def sampleCommand : Command Nat := ⟨"kubelogin get-token", 7⟩

example : expandHomedir aliceOS "~/.kube/oidc-cache" = ("/home/alice/.kube/oidc-cache", none) := by
  decide
example : expandHomedir aliceOS "~user/x" = ("~user/x", none) := by decide
example : expandHomedir homelessOS "~/x"
    = ("", some (GoError.wrapError "could not expand homedir: $HOME is not defined"
        (errorsNew "$HOME is not defined"))) := by decide
example : (RunE aliceOS (sampleCollaborators aliceOS) sampleOptions sampleCommand []).calls
    = [(7, { Provider := ⟨"https://issuer.example.com", "YOUR_CLIENT_ID", "", ["email", "profile"]⟩
             TokenCacheDir := "/home/alice/.kube/oidc-cache"
             GrantOptionSet := "/home/alice/.kube/oidc-server.crt"
             TLSClientConfig := "/home/alice/.kube/ca.crt" })] := by
  decide
example : (RunE tildeOS (sampleCollaborators tildeOS) sampleOptions sampleCommand []).calls.map
    (fun x => x.2.TokenCacheDir) = ["~/.kube/oidc-cache"] := by
  decide

/-! ## Lemmas on strings and prefixes -/

theorem pathSeparator_ne_tilde (g : GOOS) : PathSeparator g ≠ '~' := by
  cases g <;> decide

theorem tildeSep_data (os : OS) : (tildeSep os).data = ['~', PathSeparator os.goos] := rfl

/-- A string has the prefix `"~" + separator` exactly when its characters are
`~`, the separator, and then anything. -/
theorem hasPrefix_tildeSep_iff (os : OS) (s : String) :
    HasPrefix s (tildeSep os) = true ↔ ∃ rest, s.data = '~' :: PathSeparator os.goos :: rest := by
  unfold HasPrefix
  rw [tildeSep_data]
  constructor
  · intro h
    simp only [Bool.and_eq_true, decide_eq_true_eq, beq_iff_eq] at h
    refine ⟨s.data.drop 2, ?_⟩
    have h2 := List.take_append_drop 2 s.data
    simp only [List.length_cons, List.length_nil] at h
    rw [h.2] at h2
    simpa using h2.symm
  · rintro ⟨rest, hr⟩
    simp [hr]

theorem hasPrefix_tildeSep_false_iff (os : OS) (s : String) :
    HasPrefix s (tildeSep os) = false ↔ ¬ ∃ rest, s.data = '~' :: PathSeparator os.goos :: rest := by
  rw [← hasPrefix_tildeSep_iff, Bool.not_eq_true]

/-- Trimming the prefix `"~"` from a string that starts with `~` drops that one character. -/
theorem trimPrefix_tilde_cons (s : String) (rest : List Char) (h : s.data = '~' :: rest) :
    TrimPrefix s "~" = ⟨rest⟩ := by
  unfold TrimPrefix HasPrefix
  simp [h]

/-- The result of `expandHomedir` on a string that has the prefix, when the lookup succeeds. -/
theorem expandHomedir_of_data (os : OS) (s h : String) (rest : List Char)
    (hs : s.data = '~' :: PathSeparator os.goos :: rest) (hh : os.UserHomeDir = (h, none)) :
    expandHomedir os s = (⟨h.data ++ PathSeparator os.goos :: rest⟩, none) := by
  have hp : HasPrefix s (tildeSep os) = true := (hasPrefix_tildeSep_iff os s).2 ⟨rest, hs⟩
  unfold expandHomedir
  rw [hp, hh, trimPrefix_tilde_cons s _ hs]
  rfl

/-- The result of `expandHomedir` on a string that does not have the prefix. -/
theorem expandHomedir_of_not_hasPrefix (os : OS) (s : String)
    (hs : HasPrefix s (tildeSep os) = false) : expandHomedir os s = (s, none) := by
  unfold expandHomedir
  rw [hs]
  rfl

theorem hasPrefix_append (p r : String) : HasPrefix (p ++ r) p = true := by
  unfold HasPrefix
  simp

/-- Strings that lack the prefix on both platforms: the empty string, a bare
`~`, `~user` paths, absolute paths, and paths with `~` and a separator further in. -/
theorem hasPrefix_tildeSep_examples (g : GOOS) :
    HasPrefix "" ("~" ++ String.singleton (PathSeparator g)) = false
      ∧ HasPrefix "~" ("~" ++ String.singleton (PathSeparator g)) = false
      ∧ HasPrefix "~user/x" ("~" ++ String.singleton (PathSeparator g)) = false
      ∧ HasPrefix "~user\\x" ("~" ++ String.singleton (PathSeparator g)) = false
      ∧ HasPrefix "/etc/kube" ("~" ++ String.singleton (PathSeparator g)) = false
      ∧ HasPrefix "C:\\kube" ("~" ++ String.singleton (PathSeparator g)) = false
      ∧ HasPrefix "a/~/b" ("~" ++ String.singleton (PathSeparator g)) = false
      ∧ HasPrefix "a\\~\\b" ("~" ++ String.singleton (PathSeparator g)) = false := by
  cases g <;> decide

/-- When the home directory is neither `~` nor starts with `"~" + separator`,
a result that `expandHomedir` returns without an error does not start with
`"~" + separator`. -/
theorem expandHomedir_resolved (os : OS) (s : String)
    (hh : ∀ h, os.UserHomeDir = (h, none) →
      h ≠ "~" ∧ HasPrefix h (tildeSep os) = false)
    (hok : (expandHomedir os s).2 = none) :
    HasPrefix (expandHomedir os s).1 (tildeSep os) = false := by
  cases hp : HasPrefix s (tildeSep os) with
  | false => rw [expandHomedir_of_not_hasPrefix os s hp]; exact hp
  | true =>
    obtain ⟨rest, hr⟩ := (hasPrefix_tildeSep_iff os s).1 hp
    rcases hu : os.UserHomeDir with ⟨h, e⟩
    cases e with
    | some e =>
      unfold expandHomedir at hok
      rw [hp, hu] at hok
      simp at hok
    | none =>
      obtain ⟨h1, h2⟩ := hh h hu
      rw [expandHomedir_of_data os s h rest hr hu]
      rw [hasPrefix_tildeSep_false_iff] at h2 ⊢
      rintro ⟨rest2, hr2⟩
      simp only at hr2
      match hd : h.data, hr2 with
      | [], hr2 =>
        simp only [List.nil_append, List.cons.injEq] at hr2
        exact pathSeparator_ne_tilde _ hr2.1
      | [a], hr2 =>
        simp only [List.singleton_append, List.cons.injEq] at hr2
        apply h1
        apply String.ext
        rw [hd, hr2.1]
      | a :: b :: t, hr2 =>
        simp only [List.cons_append, List.cons.injEq] at hr2
        exact h2 ⟨t, by rw [hd, hr2.1, hr2.2.1]⟩

/-! ## The claims on `expandHomedir` -/

/-- C1: for a string `s` that begins with `"~"` followed by the path separator,
and a home directory `h` that the lookup returns with a nil error,
`expandHomedir(s)` returns a nil error and `h` followed by `s` without its one
leading `"~"`: `s` is `"~" + rest` and the result is `h + rest`. -/
theorem expandHomedir_expands (os : OS) (s h : String)
    (hs : HasPrefix s (tildeSep os) = true) (hh : os.UserHomeDir = (h, none)) :
    ∃ rest : String, s = "~" ++ rest ∧ expandHomedir os s = (h ++ rest, none) := by
  obtain ⟨rest, hr⟩ := (hasPrefix_tildeSep_iff os s).1 hs
  refine ⟨⟨PathSeparator os.goos :: rest⟩, ?_, ?_⟩
  · apply String.ext
    rw [hr]
    rfl
  · rw [expandHomedir_of_data os s h rest hr hh]
    rfl

theorem expandHomedir_expands_witness :
    ∃ rest : String, "~/.kube/oidc-cache" = "~" ++ rest
      ∧ expandHomedir aliceOS "~/.kube/oidc-cache" = ("/home/alice" ++ rest, none) :=
  expandHomedir_expands aliceOS "~/.kube/oidc-cache" "/home/alice" (by decide) rfl

/-- C8: a string `s` that does not begin with `"~"` followed by the path separator
is returned unchanged with a nil error, on either platform and whatever the
home-directory lookup would return (a directory or an error). -/
theorem expandHomedir_unchanged (g : GOOS) (s : String)
    (hs : HasPrefix s ("~" ++ String.singleton (PathSeparator g)) = false)
    (lookup : String × Option GoError) :
    expandHomedir ⟨g, lookup⟩ s = (s, none) :=
  expandHomedir_of_not_hasPrefix ⟨g, lookup⟩ s hs

theorem expandHomedir_unchanged_witness :
    expandHomedir ⟨GOOS.unix, ("", some (errorsNew "$HOME is not defined"))⟩ "~user/x"
      = ("~user/x", none) :=
  expandHomedir_unchanged GOOS.unix "~user/x" (by decide) ("", some (errorsNew "$HOME is not defined"))

/-- C9: when the home directory `h` that the lookup returns does not begin with
`"~"` followed by the path separator, `expandHomedir` is idempotent: for every
string `s` it returns a nil error, and applied to its own result it returns that
result again with a nil error. -/
theorem expandHomedir_idempotent (os : OS) (s h : String)
    (hh : os.UserHomeDir = (h, none)) (hp : HasPrefix h (tildeSep os) = false) :
    (expandHomedir os s).2 = none
      ∧ expandHomedir os (expandHomedir os s).1 = ((expandHomedir os s).1, none) := by
  cases hs : HasPrefix s (tildeSep os) with
  | false =>
    rw [expandHomedir_of_not_hasPrefix os s hs]
    exact ⟨rfl, expandHomedir_of_not_hasPrefix os s hs⟩
  | true =>
    obtain ⟨rest, hr⟩ := (hasPrefix_tildeSep_iff os s).1 hs
    have hres := expandHomedir_of_data os s h rest hr hh
    refine ⟨by rw [hres], ?_⟩
    cases hq : HasPrefix (expandHomedir os s).1 (tildeSep os) with
    | false => exact expandHomedir_of_not_hasPrefix os _ hq
    | true =>
      obtain ⟨rest2, hr2⟩ := (hasPrefix_tildeSep_iff os _).1 hq
      rw [hres] at hr2
      simp only at hr2
      rw [hasPrefix_tildeSep_false_iff] at hp
      match hd : h.data, hr2 with
      | [], hr2 =>
        simp only [List.nil_append, List.cons.injEq] at hr2
        exact absurd hr2.1 (pathSeparator_ne_tilde _)
      | [a], hr2 =>
        simp only [List.singleton_append, List.cons.injEq] at hr2
        have hsame : (expandHomedir os s).1 = s := by
          apply String.ext
          rw [hres, hr]
          simp only [hd, List.singleton_append, hr2.1]
        rw [hsame, hres]
        simp only [Prod.mk.injEq, and_true]
        apply String.ext
        rw [hr]
        simp only [hd, List.singleton_append, hr2.1]
      | a :: b :: t, hr2 =>
        simp only [List.cons_append, List.cons.injEq] at hr2
        exact absurd ⟨t, by rw [hd, hr2.1, hr2.2.1]⟩ hp

theorem expandHomedir_idempotent_witness :
    (expandHomedir aliceOS "~/.kube/oidc-cache").2 = none
      ∧ expandHomedir aliceOS (expandHomedir aliceOS "~/.kube/oidc-cache").1
        = ((expandHomedir aliceOS "~/.kube/oidc-cache").1, none) :=
  expandHomedir_idempotent aliceOS "~/.kube/oidc-cache" "/home/alice" rfl (by decide)

/-! ## The claims on the options and the closures -/

section Closures

variable {T A G C Ctx : Type}

/-- When `(*getTokenOptions).expandHomedir` returns nil, the three expansions
returned nil and the options hold their three results; the other fields are as before. -/
theorem getTokenOptions_expandHomedir_ok (os : OS) (k : Collaborators T A G C Ctx)
    (o o' : getTokenOptions T A) (he : getTokenOptions.expandHomedir os k o = (o', none)) :
    (expandHomedir os o.TokenCacheDir).2 = none
      ∧ (k.authenticationOptions_expandHomedir o.authenticationOptions).2 = none
      ∧ (k.tlsOptions_expandHomedir o.tlsOptions).2 = none
      ∧ o' = { o with
          TokenCacheDir := (expandHomedir os o.TokenCacheDir).1
          authenticationOptions := (k.authenticationOptions_expandHomedir o.authenticationOptions).1
          tlsOptions := (k.tlsOptions_expandHomedir o.tlsOptions).1 } := by
  unfold getTokenOptions.expandHomedir at he
  rcases h1 : expandHomedir os o.TokenCacheDir with ⟨dir, e1⟩
  rcases h2 : k.authenticationOptions_expandHomedir o.authenticationOptions with ⟨a, e2⟩
  rcases h3 : k.tlsOptions_expandHomedir o.tlsOptions with ⟨t, e3⟩
  rw [h1] at he
  cases e1 with
  | some e1 => simp at he
  | none =>
    simp only [h2] at he
    cases e2 with
    | some e2 => simp at he
    | none =>
      simp only [h3] at he
      cases e3 with
      | some e3 => simp at he
      | none =>
        simp only [Prod.mk.injEq, and_true] at he
        exact ⟨rfl, rfl, rfl, he.symm⟩

/-- C10: when the token cache directory begins with `"~"` followed by the path
separator and the home-directory lookup fails with `e`,
`(*getTokenOptions).expandHomedir` returns an error whose message is
`"invalid --token-cache-dir: "` followed by the message of the error of
`expandHomedir`, which it wraps and which in turn wraps `e`; whatever the
expansions of the authentication and TLS options would do, those options are
left as they were, and `TokenCacheDir` is left holding the empty string. -/
theorem getTokenOptions_expandHomedir_tokenCacheDir_failure (os : OS)
    (k : Collaborators T A G C Ctx) (o : getTokenOptions T A) (d : String) (e : GoError)
    (hs : HasPrefix o.TokenCacheDir (tildeSep os) = true)
    (hl : os.UserHomeDir = (d, some e)) :
    ∃ err : GoError, (getTokenOptions.expandHomedir os k o).2 = some err
      ∧ HasPrefix err.Error "invalid --token-cache-dir: " = true
      ∧ err.Error = "invalid --token-cache-dir: " ++ ("could not expand homedir: " ++ e.Error)
      ∧ err.Unwrap = (expandHomedir os o.TokenCacheDir).2
      ∧ err.Unwrap.bind GoError.Unwrap = some e
      ∧ (getTokenOptions.expandHomedir os k o).1.authenticationOptions = o.authenticationOptions
      ∧ (getTokenOptions.expandHomedir os k o).1.tlsOptions = o.tlsOptions
      ∧ (getTokenOptions.expandHomedir os k o).1.TokenCacheDir = ""
      ∧ (getTokenOptions.expandHomedir os k o).1 = { o with TokenCacheDir := "" } := by
  have h1 : expandHomedir os o.TokenCacheDir
      = ("", some (Errorf "could not expand homedir: " e)) := by
    unfold expandHomedir
    rw [hs, hl]
    rfl
  have h2 : getTokenOptions.expandHomedir os k o
      = ({ o with TokenCacheDir := "" },
          some (Errorf "invalid --token-cache-dir: " (Errorf "could not expand homedir: " e))) := by
    unfold getTokenOptions.expandHomedir
    rw [h1]
  rw [h2, h1]
  exact ⟨_, rfl, hasPrefix_append _ _, rfl, rfl, rfl, rfl, rfl, rfl, rfl⟩

theorem getTokenOptions_expandHomedir_tokenCacheDir_failure_witness :
    ∃ err : GoError,
      (getTokenOptions.expandHomedir homelessOS (sampleCollaborators homelessOS) sampleOptions).2
        = some err
      ∧ HasPrefix err.Error "invalid --token-cache-dir: " = true
      ∧ err.Error = "invalid --token-cache-dir: "
          ++ ("could not expand homedir: " ++ (errorsNew "$HOME is not defined").Error)
      ∧ err.Unwrap = (expandHomedir homelessOS sampleOptions.TokenCacheDir).2
      ∧ err.Unwrap.bind GoError.Unwrap = some (errorsNew "$HOME is not defined")
      ∧ (getTokenOptions.expandHomedir homelessOS (sampleCollaborators homelessOS)
          sampleOptions).1.authenticationOptions = sampleOptions.authenticationOptions
      ∧ (getTokenOptions.expandHomedir homelessOS (sampleCollaborators homelessOS)
          sampleOptions).1.tlsOptions = sampleOptions.tlsOptions
      ∧ (getTokenOptions.expandHomedir homelessOS (sampleCollaborators homelessOS)
          sampleOptions).1.TokenCacheDir = ""
      ∧ (getTokenOptions.expandHomedir homelessOS (sampleCollaborators homelessOS)
          sampleOptions).1 = { sampleOptions with TokenCacheDir := "" } :=
  getTokenOptions_expandHomedir_tokenCacheDir_failure homelessOS
    (sampleCollaborators homelessOS) sampleOptions "" (errorsNew "$HOME is not defined")
    (by decide) rfl

/-- The closure `RunE` when the expansion of the options fails. -/
theorem RunE_of_expandHomedir_error (os : OS) (k : Collaborators T A G C Ctx)
    (o : getTokenOptions T A) (c : Command Ctx) (args : List String) (e : GoError)
    (he : (getTokenOptions.expandHomedir os k o).2 = some e) :
    RunE os k o c args = ⟨some e, []⟩ := by
  unfold RunE
  rcases h : getTokenOptions.expandHomedir os k o with ⟨o', e'⟩
  rw [h] at he
  simp only at he
  subst he
  rfl

/-- The closure `RunE` when the expansion succeeds and the grant option set cannot be derived. -/
theorem RunE_of_grantOptionSet_error (os : OS) (k : Collaborators T A G C Ctx)
    (o : getTokenOptions T A) (c : Command Ctx) (args : List String) (e : GoError)
    (he : (getTokenOptions.expandHomedir os k o).2 = none)
    (hg : (k.grantOptionSet (getTokenOptions.expandHomedir os k o).1.authenticationOptions).2
      = some e) :
    RunE os k o c args = ⟨some (Errorf "get-token: " e), []⟩ := by
  unfold RunE
  rcases h : getTokenOptions.expandHomedir os k o with ⟨o', e'⟩
  rw [h] at he hg
  simp only at he hg
  subst he
  rcases h2 : k.grantOptionSet o'.authenticationOptions with ⟨g, e2⟩
  rw [h2] at hg
  simp only at hg
  subst hg
  simp only [h2]

/-- The closure `RunE` when the expansion and the derivation of the grant option
set succeed: one call of `Do`, whose error decides the result. -/
theorem RunE_of_ok (os : OS) (k : Collaborators T A G C Ctx)
    (o o' : getTokenOptions T A) (c : Command Ctx) (args : List String) (g : G)
    (he : getTokenOptions.expandHomedir os k o = (o', none))
    (hg : k.grantOptionSet o'.authenticationOptions = (g, none)) :
    RunE os k o c args
      = ⟨(k.Do c.Context ⟨⟨o'.IssuerURL, o'.ClientID, o'.ClientSecret, o'.ExtraScopes⟩,
            o'.TokenCacheDir, g, k.tlsClientConfig o'.tlsOptions⟩).map (Errorf "get-token: "),
          [(c.Context, ⟨⟨o'.IssuerURL, o'.ClientID, o'.ClientSecret, o'.ExtraScopes⟩,
            o'.TokenCacheDir, g, k.tlsClientConfig o'.tlsOptions⟩)]⟩ := by
  unfold RunE
  rw [he]
  simp only [hg]
  cases k.Do c.Context ⟨⟨o'.IssuerURL, o'.ClientID, o'.ClientSecret, o'.ExtraScopes⟩,
      o'.TokenCacheDir, g, k.tlsClientConfig o'.tlsOptions⟩ <;> rfl

/-- C2: the closure `Args` returns nil exactly when there is no positional
argument, the issuer URL is not empty and the client ID is not empty; in every
other case the command, run through cobra, returns the error of `Args` and
never calls `Do`, as `RunE` is not run. -/
theorem Args_eq_none_iff (quote : String → String) (os : OS)
    (k : Collaborators T A G C Ctx) (o : getTokenOptions T A) (c : Command Ctx)
    (args : List String) :
    (Args quote o c args = none ↔ args = [] ∧ o.IssuerURL ≠ "" ∧ o.ClientID ≠ "")
      ∧ (¬ (args = [] ∧ o.IssuerURL ≠ "" ∧ o.ClientID ≠ "") →
          Args quote o c args ≠ none
            ∧ (execute quote os k o c args).err = Args quote o c args
            ∧ (execute quote os k o c args).calls = []) := by
  have hiff : Args quote o c args = none ↔ args = [] ∧ o.IssuerURL ≠ "" ∧ o.ClientID ≠ "" := by
    unfold Args NoArgs
    cases args with
    | cons a t => simp
    | nil =>
      by_cases h1 : o.IssuerURL = ""
      · simp [h1]
      · by_cases h2 : o.ClientID = ""
        · simp [h1, h2]
        · simp [h1, h2]
  refine ⟨hiff, fun hn => ?_⟩
  have hne : Args quote o c args ≠ none := fun h => hn (hiff.1 h)
  refine ⟨hne, ?_⟩
  unfold execute
  cases h : Args quote o c args with
  | none => exact absurd h hne
  | some e => exact ⟨rfl, rfl⟩

theorem Args_eq_none_iff_witness :
    (Args id { sampleOptions with ClientID := "" } sampleCommand [] = none
        ↔ ([] : List String) = [] ∧ "https://issuer.example.com" ≠ "" ∧ "" ≠ "")
      ∧ (execute id aliceOS (sampleCollaborators aliceOS) { sampleOptions with ClientID := "" }
          sampleCommand []).err = some (errorsNew "--oidc-client-id is missing")
      ∧ (execute id aliceOS (sampleCollaborators aliceOS) { sampleOptions with ClientID := "" }
          sampleCommand []).calls = [] :=
  have h := Args_eq_none_iff id aliceOS (sampleCollaborators aliceOS)
    { sampleOptions with ClientID := "" } sampleCommand []
  ⟨h.1, (h.2 (by decide)).2⟩

/-- C3: when the expansion of the options succeeds, leaving the options `o'`, and
the grant option set `g` is derived from them, `RunE` calls `Do` exactly once,
with the context of the command and an `Input` whose provider has the issuer
URL, client ID, client secret and extra scopes of the options, whose
`TokenCacheDir` is the expanded token cache directory, whose `GrantOptionSet` is
`g` and whose `TLSClientConfig` is the config derived from the TLS options. -/
theorem RunE_calls_Do_once (os : OS) (k : Collaborators T A G C Ctx)
    (o o' : getTokenOptions T A) (c : Command Ctx) (args : List String) (g : G)
    (he : getTokenOptions.expandHomedir os k o = (o', none))
    (hg : k.grantOptionSet o'.authenticationOptions = (g, none)) :
    (RunE os k o c args).calls
      = [(c.Context,
          { Provider :=
              { IssuerURL := o.IssuerURL
                ClientID := o.ClientID
                ClientSecret := o.ClientSecret
                ExtraScopes := o.ExtraScopes }
            TokenCacheDir := (expandHomedir os o.TokenCacheDir).1
            GrantOptionSet := g
            TLSClientConfig := k.tlsClientConfig o'.tlsOptions })] := by
  rw [RunE_of_ok os k o o' c args g he hg]
  obtain ⟨_, _, _, ho⟩ := getTokenOptions_expandHomedir_ok os k o o' he
  subst ho
  rfl

theorem RunE_calls_Do_once_witness :
    (RunE aliceOS (sampleCollaborators aliceOS) sampleOptions sampleCommand []).calls
      = [(7,
          { Provider :=
              { IssuerURL := "https://issuer.example.com"
                ClientID := "YOUR_CLIENT_ID"
                ClientSecret := ""
                ExtraScopes := ["email", "profile"] }
            TokenCacheDir := "/home/alice/.kube/oidc-cache"
            GrantOptionSet := "/home/alice/.kube/oidc-server.crt"
            TLSClientConfig := "/home/alice/.kube/ca.crt" })] :=
  RunE_calls_Do_once aliceOS (sampleCollaborators aliceOS) sampleOptions
    { sampleOptions with
      TokenCacheDir := "/home/alice/.kube/oidc-cache"
      tlsOptions := "/home/alice/.kube/ca.crt"
      authenticationOptions := "/home/alice/.kube/oidc-server.crt" }
    sampleCommand [] "/home/alice/.kube/oidc-server.crt" (by decide) (by decide)

/-- C4: if the expansion of the options fails, or the grant option set cannot
be derived from the expanded options, `RunE` returns a non-nil error and calls
`Do` zero times; when it is the grant option set that fails, with error `e`, the
error returned has the message `"get-token: "` followed by the message of `e`
and unwraps to `e`. -/
theorem RunE_configuration_error (os : OS) (k : Collaborators T A G C Ctx)
    (o : getTokenOptions T A) (c : Command Ctx) (args : List String)
    (h : (getTokenOptions.expandHomedir os k o).2 ≠ none
      ∨ (k.grantOptionSet (getTokenOptions.expandHomedir os k o).1.authenticationOptions).2
          ≠ none) :
    (RunE os k o c args).err ≠ none
      ∧ (RunE os k o c args).calls = []
      ∧ ∀ e : GoError, (getTokenOptions.expandHomedir os k o).2 = none →
          (k.grantOptionSet (getTokenOptions.expandHomedir os k o).1.authenticationOptions).2
            = some e →
          ∃ err : GoError, (RunE os k o c args).err = some err
            ∧ err.Error = "get-token: " ++ e.Error
            ∧ err.Unwrap = some e := by
  have hgrant : ∀ e : GoError, (getTokenOptions.expandHomedir os k o).2 = none →
      (k.grantOptionSet (getTokenOptions.expandHomedir os k o).1.authenticationOptions).2
        = some e →
      ∃ err : GoError, (RunE os k o c args).err = some err
        ∧ err.Error = "get-token: " ++ e.Error
        ∧ err.Unwrap = some e := by
    intro e he hg
    rw [RunE_of_grantOptionSet_error os k o c args e he hg]
    exact ⟨_, rfl, rfl, rfl⟩
  cases he : (getTokenOptions.expandHomedir os k o).2 with
  | some e =>
    rw [RunE_of_expandHomedir_error os k o c args e he]
    refine ⟨by simp, rfl, ?_⟩
    intro e' he'
    exact absurd he' (by simp)
  | none =>
    have hg : (k.grantOptionSet
        (getTokenOptions.expandHomedir os k o).1.authenticationOptions).2 ≠ none := by
      rcases h with h | h
      · exact absurd he h
      · exact h
    obtain ⟨e, hge⟩ := Option.ne_none_iff_exists'.1 hg
    refine ⟨?_, ?_, fun e' _ => hgrant e' he⟩
    · rw [RunE_of_grantOptionSet_error os k o c args e he hge]
      simp
    · rw [RunE_of_grantOptionSet_error os k o c args e he hge]

theorem RunE_configuration_error_witness :
    (RunE aliceOS (sampleCollaborators aliceOS)
        { sampleOptions with authenticationOptions := "ambiguous" } sampleCommand []).err ≠ none
      ∧ (RunE aliceOS (sampleCollaborators aliceOS)
        { sampleOptions with authenticationOptions := "ambiguous" } sampleCommand []).calls = []
      ∧ ∃ err : GoError,
          (RunE aliceOS (sampleCollaborators aliceOS)
            { sampleOptions with authenticationOptions := "ambiguous" } sampleCommand []).err
            = some err
          ∧ err.Error = "get-token: " ++ (errorsNew "ambiguous grant options").Error
          ∧ err.Unwrap = some (errorsNew "ambiguous grant options") :=
  have h := RunE_configuration_error aliceOS (sampleCollaborators aliceOS)
    { sampleOptions with authenticationOptions := "ambiguous" } sampleCommand []
    (Or.inr (by decide))
  ⟨h.1, h.2.1, h.2.2 (errorsNew "ambiguous grant options") (by decide) (by decide)⟩

/-- C5, as stated, fails: with the home directory `~` the token cache directory
`~/.kube/oidc-cache` is handed to `Do` as `~/.kube/oidc-cache`, which begins
with `"~"` followed by the path separator. -/
theorem RunE_tokenCacheDir_unresolved :
    (RunE tildeOS (sampleCollaborators tildeOS) sampleOptions sampleCommand []).calls.map
        (fun call => (call.2.TokenCacheDir, HasPrefix call.2.TokenCacheDir (tildeSep tildeOS)))
      = [("~/.kube/oidc-cache", true)] := by
  decide

/-- C5, amended: when the home directory, if the lookup returns one, is neither
`~` nor a string beginning with `"~"` followed by the path separator, the
`TokenCacheDir` of every call of `Do` that `RunE` makes does not begin with
`"~"` followed by the path separator. -/
theorem RunE_tokenCacheDir_resolved (os : OS) (k : Collaborators T A G C Ctx)
    (o : getTokenOptions T A) (c : Command Ctx) (args : List String)
    (hh : ∀ h, os.UserHomeDir = (h, none) → h ≠ "~" ∧ HasPrefix h (tildeSep os) = false)
    (call : Ctx × Input G C) (hcall : call ∈ (RunE os k o c args).calls) :
    HasPrefix call.2.TokenCacheDir (tildeSep os) = false := by
  rcases he : getTokenOptions.expandHomedir os k o with ⟨o', e1⟩
  cases e1 with
  | some e1 =>
    rw [RunE_of_expandHomedir_error os k o c args e1 (by rw [he])] at hcall
    simp at hcall
  | none =>
    rcases hg : k.grantOptionSet o'.authenticationOptions with ⟨g, e2⟩
    cases e2 with
    | some e2 =>
      rw [RunE_of_grantOptionSet_error os k o c args e2 (by rw [he]) (by rw [he, hg])] at hcall
      simp at hcall
    | none =>
      rw [RunE_of_ok os k o o' c args g he hg] at hcall
      simp only [List.mem_singleton] at hcall
      subst hcall
      obtain ⟨hok, _, _, ho⟩ := getTokenOptions_expandHomedir_ok os k o o' he
      subst ho
      exact expandHomedir_resolved os o.TokenCacheDir hh hok

theorem RunE_tokenCacheDir_resolved_witness :
    HasPrefix "/home/alice/.kube/oidc-cache" (tildeSep aliceOS) = false :=
  RunE_tokenCacheDir_resolved aliceOS (sampleCollaborators aliceOS) sampleOptions sampleCommand []
    (fun h hh => by
      have h1 : h = "/home/alice" := (congrArg Prod.fst hh).symm
      subst h1
      decide)
    (7,
      { Provider :=
          { IssuerURL := "https://issuer.example.com"
            ClientID := "YOUR_CLIENT_ID"
            ClientSecret := ""
            ExtraScopes := ["email", "profile"] }
        TokenCacheDir := "/home/alice/.kube/oidc-cache"
        GrantOptionSet := "/home/alice/.kube/oidc-server.crt"
        TLSClientConfig := "/home/alice/.kube/ca.crt" })
    (by decide)

/-- C6: when the expansion of the options and the derivation of the grant option
set succeed, `RunE` makes one call of `Do` and returns nil exactly when that
call returns nil; when the call returns an error `e`, `RunE` returns an error
whose message is `"get-token: "` followed by the message of `e` and which
unwraps to `e`. -/
theorem RunE_returns_Do_result (os : OS) (k : Collaborators T A G C Ctx)
    (o o' : getTokenOptions T A) (c : Command Ctx) (args : List String) (g : G)
    (he : getTokenOptions.expandHomedir os k o = (o', none))
    (hg : k.grantOptionSet o'.authenticationOptions = (g, none)) :
    ∃ inp : Input G C, (RunE os k o c args).calls = [(c.Context, inp)]
      ∧ ((RunE os k o c args).err = none ↔ k.Do c.Context inp = none)
      ∧ ∀ e : GoError, k.Do c.Context inp = some e →
          ∃ err : GoError, (RunE os k o c args).err = some err
            ∧ err.Error = "get-token: " ++ e.Error
            ∧ err.Unwrap = some e := by
  rw [RunE_of_ok os k o o' c args g he hg]
  refine ⟨_, rfl, ?_, ?_⟩
  · simp
  · intro e hd
    rw [hd]
    exact ⟨_, rfl, rfl, rfl⟩

theorem RunE_returns_Do_result_witness :
    ∃ inp : Input String String,
      (RunE aliceOS (sampleCollaborators aliceOS) { sampleOptions with IssuerURL := "fail" }
        sampleCommand []).calls = [(sampleCommand.Context, inp)]
      ∧ ((RunE aliceOS (sampleCollaborators aliceOS) { sampleOptions with IssuerURL := "fail" }
          sampleCommand []).err = none
        ↔ (sampleCollaborators aliceOS).Do sampleCommand.Context inp = none)
      ∧ ∀ e : GoError, (sampleCollaborators aliceOS).Do sampleCommand.Context inp = some e →
          ∃ err : GoError,
            (RunE aliceOS (sampleCollaborators aliceOS) { sampleOptions with IssuerURL := "fail" }
              sampleCommand []).err = some err
            ∧ err.Error = "get-token: " ++ e.Error
            ∧ err.Unwrap = some e :=
  RunE_returns_Do_result aliceOS (sampleCollaborators aliceOS)
    { sampleOptions with IssuerURL := "fail" }
    { sampleOptions with
      IssuerURL := "fail"
      TokenCacheDir := "/home/alice/.kube/oidc-cache"
      tlsOptions := "/home/alice/.kube/ca.crt"
      authenticationOptions := "/home/alice/.kube/oidc-server.crt" }
    sampleCommand [] "/home/alice/.kube/oidc-server.crt" (by decide) (by decide)

/-- C7: in every call of `Do` that `RunE` makes, the `GrantOptionSet` is
`grantOptionSet` applied to the authentication options as their `expandHomedir`
left them, and the `TLSClientConfig` is `tlsClientConfig` applied to the TLS
options as their `expandHomedir` left them. -/
theorem RunE_derives_after_expansion (os : OS) (k : Collaborators T A G C Ctx)
    (o : getTokenOptions T A) (c : Command Ctx) (args : List String)
    (call : Ctx × Input G C) (hcall : call ∈ (RunE os k o c args).calls) :
    call.2.GrantOptionSet
        = (k.grantOptionSet
            (k.authenticationOptions_expandHomedir o.authenticationOptions).1).1
      ∧ call.2.TLSClientConfig
        = k.tlsClientConfig (k.tlsOptions_expandHomedir o.tlsOptions).1 := by
  rcases he : getTokenOptions.expandHomedir os k o with ⟨o', e1⟩
  cases e1 with
  | some e1 =>
    rw [RunE_of_expandHomedir_error os k o c args e1 (by rw [he])] at hcall
    simp at hcall
  | none =>
    rcases hg : k.grantOptionSet o'.authenticationOptions with ⟨g, e2⟩
    cases e2 with
    | some e2 =>
      rw [RunE_of_grantOptionSet_error os k o c args e2 (by rw [he]) (by rw [he, hg])] at hcall
      simp at hcall
    | none =>
      rw [RunE_of_ok os k o o' c args g he hg] at hcall
      simp only [List.mem_singleton] at hcall
      subst hcall
      obtain ⟨_, _, _, ho⟩ := getTokenOptions_expandHomedir_ok os k o o' he
      subst ho
      simp only at hg
      simp only [hg, and_self]

theorem RunE_derives_after_expansion_witness :
    ("/home/alice/.kube/oidc-server.crt"
        = ((sampleCollaborators aliceOS).grantOptionSet
            ((sampleCollaborators aliceOS).authenticationOptions_expandHomedir
              "~/.kube/oidc-server.crt").1).1
      ∧ "/home/alice/.kube/ca.crt"
        = (sampleCollaborators aliceOS).tlsClientConfig
            ((sampleCollaborators aliceOS).tlsOptions_expandHomedir "~/.kube/ca.crt").1)
      ∧ ((sampleCollaborators aliceOS).grantOptionSet "~/.kube/oidc-server.crt").1
        ≠ "/home/alice/.kube/oidc-server.crt"
      ∧ (sampleCollaborators aliceOS).tlsClientConfig "~/.kube/ca.crt"
        ≠ "/home/alice/.kube/ca.crt" :=
  ⟨RunE_derives_after_expansion aliceOS (sampleCollaborators aliceOS) sampleOptions
      sampleCommand []
      (7,
        { Provider :=
            { IssuerURL := "https://issuer.example.com"
              ClientID := "YOUR_CLIENT_ID"
              ClientSecret := ""
              ExtraScopes := ["email", "profile"] }
          TokenCacheDir := "/home/alice/.kube/oidc-cache"
          GrantOptionSet := "/home/alice/.kube/oidc-server.crt"
          TLSClientConfig := "/home/alice/.kube/ca.crt" })
      (by decide),
    by decide, by decide⟩

end Closures




end Kubelogin
